import Mathlib

set_option maxRecDepth 100000

/-!
Verification development for the hero-dbc extraction pipeline.

Shallow embedding of the Python transformation units under scripts/parsers
into Lean 4.  Machine floats are modelled as exact rationals; rational
results are built with mkRat so that every definition is executable by the
kernel.  Python dictionaries are modelled as association lists with
replace-or-append update semantics, which matches insertion-ordered dicts.
-/

/-! ## Shared helpers: Python-style parsing and arithmetic -/

/-- Numeric value of a list of decimal digit characters. -/
def digitsVal (s : List Char) : ℕ := s.foldl (fun a c => 10 * a + (c.toNat - 48)) 0

/-- A nonempty all-digit character list. -/
def allDigits (s : List Char) : Bool := !s.isEmpty && s.all (fun c => c.isDigit)

/-- Strip leading and trailing whitespace from a character list. -/
def trimList (l : List Char) : List Char :=
  ((l.dropWhile Char.isWhitespace).reverse.dropWhile Char.isWhitespace).reverse

/-- Model of the Python int constructor on strings: optional surrounding
whitespace, optional sign, then a nonempty run of decimal digits. -/
def pyInt (s : String) : Option Int :=
  match trimList s.data with
  | '-' :: rest => if allDigits rest then some (-(digitsVal rest : Int)) else none
  | '+' :: rest => if allDigits rest then some ((digitsVal rest : Int)) else none
  | rest => if allDigits rest then some ((digitsVal rest : Int)) else none

/-- Unsigned decimal literal, with an optional fraction part after one dot. -/
def pyFloatCore (t : List Char) : Option ℚ :=
  match t.splitOn '.' with
  | [ip] => if allDigits ip then some ((digitsVal ip : Int) : ℚ) else none
  | [ip, fp] =>
      if (ip.all (fun c => c.isDigit)) && (fp.all (fun c => c.isDigit))
          && !(ip.isEmpty && fp.isEmpty) then
        some (mkRat ((digitsVal ip : Int) * (10 : Int) ^ fp.length + (digitsVal fp : Int))
          ((10 : ℕ) ^ fp.length))
      else none
  | _ => none

/-- Model of the Python float constructor on decimal strings, as an exact
rational value. -/
def pyFloat (s : String) : Option ℚ :=
  match trimList s.data with
  | '-' :: rest => (pyFloatCore rest).map (fun q => -q)
  | '+' :: rest => pyFloatCore rest
  | rest => pyFloatCore rest

/-- Rational addition, written through mkRat so the kernel can evaluate it. -/
def qAdd (a b : ℚ) : ℚ := mkRat (a.num * b.den + b.num * a.den) (a.den * b.den)

/-- Rational multiplication, written through mkRat so the kernel can evaluate it. -/
def qMul (a b : ℚ) : ℚ := mkRat (a.num * b.num) (a.den * b.den)

/-- Multiply a rational by a power of ten. -/
def qMulPow10 (a : ℚ) (n : ℕ) : ℚ := mkRat (a.num * (10 : Int) ^ n) a.den

/-- Divide a rational by 1000 (millisecond to second rescale). -/
def qDiv1000 (a : ℚ) : ℚ := mkRat a.num (a.den * 1000)

/-- Round to the nearest integer, ties to even: the rounding used by the
Python round builtin. -/
def roundHalfEven (q : ℚ) : ℤ :=
  let f := ⌊q⌋
  let r := qAdd q (-(f : ℚ))
  if r < mkRat 1 2 then f
  else if mkRat 1 2 < r then f + 1
  else if f % 2 = 0 then f else f + 1

/-- Model of the Python round(x, n) builtin on exact rational values. -/
def pyRound (q : ℚ) (n : ℕ) : ℚ := mkRat (roundHalfEven (qMulPow10 q n)) ((10 : ℕ) ^ n)

/-- Truncation toward zero: the Python int constructor applied to a float. -/
def pyTrunc (q : ℚ) : Int := if 0 ≤ q then ⌊q⌋ else -⌊-q⌋

/-- Decimal digits of a natural number left-padded with zeros to width n. -/
def natPad (m n : ℕ) : String :=
  let s := toString m
  String.mk (List.replicate (n - s.length) '0') ++ s

/-- Fixed-point formatting with n digits after the dot, as produced by the
Python format specifier for floats. -/
def pyFormatFixed (q : ℚ) (n : ℕ) : String :=
  let scaled := roundHalfEven (qMulPow10 q n)
  let sign := if scaled < 0 then "-" else ""
  let a := scaled.natAbs
  sign ++ toString (a / 10 ^ n) ++ "." ++ natPad (a % 10 ^ n) n

/-! ## Shared helpers: insertion-ordered dictionaries -/

/-- Lookup in an association list, mirroring a Python dict read. -/
def dictGet {κ α : Type} [DecidableEq κ] : List (κ × α) → κ → Option α
  | [], _ => none
  | p :: rest, k => if p.1 = k then some p.2 else dictGet rest k

/-- Update of an association list, mirroring a Python dict write: the first
binding with the key is replaced in place, otherwise the binding is appended. -/
def dictSet {κ α : Type} [DecidableEq κ] : List (κ × α) → κ → α → List (κ × α)
  | [], k, v => [(k, v)]
  | p :: rest, k, v => if p.1 = k then (k, v) :: rest else p :: dictSet rest k v

/-! ## SpellRPPM.py: the proc-rate modifier resolution engine -/

def RPPM_HASTE_ID : Int := 1

def RPPM_CRIT_ID : Int := 2

def RPPM_CLASS_ID : Int := 3

def RPPM_SPEC_ID : Int := 4

def RPPM_RACE_ID : Int := 5

/-- Embedding of computeRPPMType from SpellRPPM.py. -/
def computeRPPMType (x : Int) : String :=
  if x = RPPM_HASTE_ID then "HASTE"
  else if x = RPPM_CRIT_ID then "CRIT"
  else if x = RPPM_CLASS_ID then "CLASS"
  else if x = RPPM_SPEC_ID then "SPEC"
  else if x = RPPM_RACE_ID then "RACE"
  else ""

/-- Embedding of computeClass from SpellRPPM.py: class id to class bit. -/
def computeClass (classmask : Int) : Int :=
  if classmask = 1 then 1
  else if classmask = 2 then 2
  else if classmask = 3 then 4
  else if classmask = 4 then 8
  else if classmask = 5 then 16
  else if classmask = 6 then 32
  else if classmask = 7 then 64
  else if classmask = 8 then 128
  else if classmask = 9 then 256
  else if classmask = 10 then 512
  else if classmask = 11 then 1024
  else if classmask = 12 then 2048
  else if classmask = 13 then 4096
  else 0

/-- One raw row of SpellProcsPerMinuteMod.csv, restricted to the columns the
parser reads. -/
structure ModRow where
  id_parent : String
  unk_1 : String
  coefficient : String
  id_chr_spec : String
deriving DecidableEq

/-- Value stored for one modifier kind of one parent spell: the haste and
crit kinds store a boolean flag, the class, spec and race kinds store a
category-to-value table. -/
inductive ModData where
  | flag : ModData
  | table : List (Int × ℚ) → ModData
deriving DecidableEq

/-- The nested modifier dictionary: parent id, then modifier kind. -/
abbrev ModPPM := List (Int × List (Int × ModData))

/-- Write a boolean flag at parent and kind, auto-creating the inner level
as the defaultdict in the source does. -/
def modSetFlag (m : ModPPM) (parent mt : Int) : ModPPM :=
  let inner := (dictGet m parent).getD []
  dictSet m parent (dictSet inner mt ModData.flag)

/-- Read the category table at parent and kind; absent levels read as the
empty table, which is what the defaultdict vivification produces.  A flag
at this slot cannot occur for the table kinds because the kind codes are
disjoint. -/
def modGetTable (m : ModPPM) (parent mt : Int) : List (Int × ℚ) :=
  match dictGet ((dictGet m parent).getD []) mt with
  | some (ModData.table t) => t
  | _ => []

/-- Write one category entry of the table at parent and kind. -/
def modSetTableEntry (m : ModPPM) (parent mt cat : Int) (v : ℚ) : ModPPM :=
  let inner := (dictGet m parent).getD []
  dictSet m parent (dictSet inner mt (ModData.table (dictSet (modGetTable m parent mt) cat v)))

/-- The scaled modifier value round(base * (1.0 + coefficient), 6) computed
by processClassModifiers and processSpecRaceModifiers. -/
def resolvedValue (b c : ℚ) : ℚ := pyRound (qMul b (qAdd 1 c)) 6

/-- Embedding of the loop of processClassModifiers: iterate the class ids
from 13 down to 1; when subtracting the class bit keeps the remaining mask
non-negative, record the scaled value (when positive) and subtract the bit. -/
def classModLoop (base coeff : ℚ) (parent mt : Int) : ℕ → Int → ModPPM → ModPPM
  | 0, _, m => m
  | Nat.succ i, racemask, m =>
      let class_bit := computeClass ((i + 1 : ℕ) : Int)
      if class_bit ≠ 0 ∧ 0 ≤ racemask - class_bit then
        let modified := resolvedValue base coeff
        let m1 := if 0 < modified then modSetTableEntry m parent mt ((i + 1 : ℕ) : Int) modified else m
        classModLoop base coeff parent mt i (racemask - class_bit) m1
      else classModLoop base coeff parent mt i racemask m

/-- Embedding of processClassModifiers from SpellRPPM.py.  A conversion
failure is reported as an error value, matching the re-raised exception. -/
def processClassModifiers (row : ModRow) (m : ModPPM) (parent : Int)
    (base_ppm : List (Int × ℚ)) (coeff : ℚ) : Except String ModPPM :=
  match pyInt row.id_chr_spec with
  | none => .error "conversion error"
  | some racemask =>
    match dictGet base_ppm parent with
    | none => .error "key error"
    | some base =>
      match pyInt row.unk_1 with
      | none => .error "conversion error"
      | some mt => .ok (classModLoop base coeff parent mt 13 racemask m)

/-- Embedding of processSpecRaceModifiers from SpellRPPM.py. -/
def processSpecRaceModifiers (row : ModRow) (m : ModPPM) (parent : Int)
    (base_ppm : List (Int × ℚ)) (coeff : ℚ) : Except String ModPPM :=
  match pyInt row.id_chr_spec with
  | none => .error "conversion error"
  | some chr_spec =>
    match dictGet base_ppm parent with
    | none => .error "key error"
    | some base =>
      match pyInt row.unk_1 with
      | none => .error "conversion error"
      | some mt =>
        let modified := resolvedValue base coeff
        .ok (if 0 < modified then modSetTableEntry m parent mt chr_spec modified else m)

/-- One iteration of the row loop of loadModPPM from SpellRPPM.py: parse the
row, skip zero coefficients and unknown parents, then dispatch on the
modifier kind.  Conversion failures abort with an error, matching the
catch-and-reraise in the source. -/
def loadModPPMStep (base_ppm : List (Int × ℚ)) (m : ModPPM) (row : ModRow) :
    Except String ModPPM :=
  match pyInt row.id_parent with
  | none => .error "conversion error"
  | some parent =>
    match pyInt row.unk_1 with
    | none => .error "conversion error"
    | some mod_type =>
      match pyFloat row.coefficient with
      | none => .error "conversion error"
      | some coeff =>
        if coeff = 0 ∨ dictGet base_ppm parent = none then .ok m
        else if mod_type = RPPM_HASTE_ID ∨ mod_type = RPPM_CRIT_ID then
          .ok (modSetFlag m parent mod_type)
        else if mod_type = RPPM_CLASS_ID then
          processClassModifiers row m parent base_ppm coeff
        else if mod_type = RPPM_SPEC_ID ∨ mod_type = RPPM_RACE_ID then
          processSpecRaceModifiers row m parent base_ppm coeff
        else .ok m

/-- Embedding of loadModPPM from SpellRPPM.py over an in-memory row list. -/
def loadModPPM (base_ppm : List (Int × ℚ)) (rows : List ModRow) : Except String ModPPM :=
  rows.foldlM (loadModPPMStep base_ppm) []

/-- The class ids selected by the high-to-low subtract-and-test decomposition
of processClassModifiers, read off the same loop skeleton as classModLoop. -/
def resolvedClasses : ℕ → Int → List Int
  | 0, _ => []
  | Nat.succ i, mask =>
      let class_bit := computeClass ((i + 1 : ℕ) : Int)
      if class_bit ≠ 0 ∧ 0 ≤ mask - class_bit then
        ((i + 1 : ℕ) : Int) :: resolvedClasses i (mask - class_bit)
      else resolvedClasses i mask

/-- Sum of the enumerated bit values of a list of class ids. -/
def classBitSum (l : List Int) : Int := (l.map computeClass).sum

/-! ## SpellRPPM.py: the Lua table-literal serializer writeLuaOutput -/

/-- Lines written for one modifier kind of one entry of SpellRPPM.lua. -/
def rppmModDataLines (mod_id : Int) (d : ModData) : String :=
  match d with
  | ModData.flag =>
      "    [" ++ toString mod_id ++ "] = true,  -- "
        ++ (if mod_id = RPPM_HASTE_ID then "HASTE" else "CRIT") ++ " scaling\n"
  | ModData.table t =>
      "    [" ++ toString mod_id ++ "] = \x7b  -- " ++ computeRPPMType mod_id ++ " modifiers\n"
        ++ String.join ((List.insertionSort (fun p q : Int × ℚ => p.1 ≤ q.1) t).map
            (fun p => "      [" ++ toString p.1 ++ "] = " ++ pyFormatFixed p.2 6 ++ ",\n"))
        ++ "    \x7d,\n"

/-- Lines written for one spell entry of SpellRPPM.lua. -/
def rppmEntryStr (mod_ppm : ModPPM) (item_id ppm_id : Int) (b : ℚ) : String :=
  "  [" ++ toString item_id ++ "] = \x7b\n"
    ++ "    [0] = " ++ pyFormatFixed b 6 ++ ",  -- Base PPM\n"
    ++ (match dictGet mod_ppm ppm_id with
        | some inner =>
            String.join ((List.insertionSort (fun p q : Int × ModData => p.1 ≤ q.1) inner).map
              (fun p => rppmModDataLines p.1 p.2))
        | none => "")
    ++ "  \x7d,\n"

/-- Fixed trailing text of SpellRPPM.lua: the lookup helper and the global
assignments, written verbatim by writeLuaOutput. -/
def rppmFooterStr : String :=
  "\n-- Fast lookup function for RPPM calculations\nlocal function GetRPPM(spellID, classID, specID)\n  local data = RPPMData[spellID]\n  if not data then return 0 end\n  \n  local base = data[0]\n  if not base then return 0 end\n  \n  -- Apply class/spec modifiers if they exist\n  if classID and data[3] and data[3][classID] then\n    base = data[3][classID]\n  end\n  if specID and data[4] and data[4][specID] then\n    base = data[4][specID]\n  end\n  \n  return base\nend\n\nHeroDBC.DBC.SpellRPPM = RPPMData\nHeroDBC.DBC.GetRPPM = GetRPPM\n"

/-- Embedding of writeLuaOutput from SpellRPPM.py, producing the full text of
SpellRPPM.lua.  Entries are emitted for the sorted keys of the spell-to-ppm
map, skipping ppm ids without a base value, as in the source. -/
def writeLuaOutput (ppm_ids : List (Int × Int)) (base_ppm : List (Int × ℚ))
    (mod_ppm : ModPPM) : String :=
  "-- Generated using WoW 11.x.x client data\n"
    ++ "-- This file contains RPPM data for spells with proc effects\n"
    ++ "-- Optimized for high-performance lookups and DPS calculations\n\n"
    ++ "local RPPMData = \x7b\n"
    ++ String.join ((List.insertionSort (fun a b : Int => a ≤ b)
          (ppm_ids.map (fun p => p.1))).map (fun item_id =>
        match dictGet ppm_ids item_id with
        | some ppm_id =>
          match dictGet base_ppm ppm_id with
          | some b => rppmEntryStr mod_ppm item_id ppm_id b
          | none => ""
        | none => ""))
    ++ "\x7d\n\n"
    ++ rppmFooterStr

/-! ## ItemRange.py: the spell-range filter process_spell_ranges -/

/-- One raw row of SpellRange.csv, restricted to the columns ItemRange.py
reads. -/
structure IRRow where
  id : String
  min_range_1 : String
  max_range_1 : String
  min_range_2 : String
  max_range_2 : String
  flag : String
deriving DecidableEq

/-- Lower bound of the valid-range window in ItemRange.py. -/
def MIN_VALID_RANGE : ℚ := 5

/-- Upper bound of the valid-range window in ItemRange.py. -/
def MAX_VALID_RANGE : ℚ := 100

/-- The friendly-range half of the loop body of process_spell_ranges. -/
def processFriendlyRange (m : List (String × (ℚ × Int))) (r : IRRow) :
    List (String × (ℚ × Int)) :=
  match pyFloat r.min_range_2, pyFloat r.max_range_2 with
  | some mn2, some mx2 =>
      if mn2 = 0 ∧ MIN_VALID_RANGE ≤ mx2 ∧ mx2 ≤ MAX_VALID_RANGE then
        match pyInt r.flag with
        | some fl => dictSet m r.id (mx2, fl)
        | none => m
      else m
  | _, _ => m

/-- One iteration of the loop of process_spell_ranges from ItemRange.py:
the hostile pair is tested first, then the friendly pair; a conversion
failure skips the rest of the row but keeps updates already made. -/
def processSpellRangesRow (m : List (String × (ℚ × Int))) (r : IRRow) :
    List (String × (ℚ × Int)) :=
  match pyFloat r.min_range_1, pyFloat r.max_range_1 with
  | some mn1, some mx1 =>
      if mn1 = 0 ∧ MIN_VALID_RANGE ≤ mx1 ∧ mx1 ≤ MAX_VALID_RANGE then
        match pyInt r.flag with
        | some fl => processFriendlyRange (dictSet m r.id (mx1, fl)) r
        | none => m
      else processFriendlyRange m r
  | _, _ => m

/-- Embedding of process_spell_ranges from ItemRange.py. -/
def process_spell_ranges (rows : List IRRow) : List (String × (ℚ × Int)) :=
  rows.foldl processSpellRangesRow []

/-- A row is accepted by the item-range unit when it lands in the
valid-range lookup. -/
def irAccepts (r : IRRow) : Bool := (dictGet (process_spell_ranges [r]) r.id).isSome

/-! ## SpellMeleeRange.py: the spell-range filter process_spell_range_data -/

/-- One raw row of SpellRange.csv, restricted to the columns
SpellMeleeRange.py reads. -/
structure MRRow where
  id : String
  min_range_1 : String
  max_range_1 : String
  flag : String
deriving DecidableEq

/-- Upper bound on accepted ranges in SpellMeleeRange.py. -/
def MAX_RANGE_THRESHOLD : ℚ := 100

/-- Melee flag code in SpellMeleeRange.py. -/
def MELEE_FLAG : Int := 1

/-- One iteration of the loop of process_spell_range_data from
SpellMeleeRange.py: parse the two range fields and the flag, then accept
when the maximum range is positive and at most the threshold. -/
def processSpellRangeDataRow (m : List (String × (String × String × Int))) (r : MRRow) :
    List (String × (String × String × Int)) :=
  match pyFloat r.min_range_1, pyFloat r.max_range_1 with
  | some mn, some mx =>
      match pyInt r.flag with
      | some fl =>
          if 0 < mx ∧ mx ≤ MAX_RANGE_THRESHOLD then
            dictSet m r.id (toString (pyTrunc mn), toString (pyTrunc mx), fl)
          else m
      | none => m
  | _, _ => m

/-- Embedding of process_spell_range_data from SpellMeleeRange.py. -/
def process_spell_range_data (rows : List MRRow) : List (String × (String × String × Int)) :=
  rows.foldl processSpellRangeDataRow []

/-- A row is accepted by the melee-range unit when it lands in the
valid-range lookup. -/
def mrAccepts (r : MRRow) : Bool := (dictGet (process_spell_range_data [r]) r.id).isSome

/-- The acceptance condition stated by the specification for spell range
rows: minimum range zero and maximum range within the inclusive window
from 5 to 100.  Written from the words of the spec, to be compared with
the two filters above. -/
def specRangeAccept (mn mx : ℚ) : Prop := mn = 0 ∧ 5 ≤ mx ∧ mx ≤ 100

/-! ## SpellMeleeRange.py: the Lua table-literal serializer write_lua_file -/

/-- One raw row of SpellMisc.csv, restricted to the columns the melee-range
unit reads. -/
structure MiscRow where
  id_parent : String
  id_range : String
deriving DecidableEq

/-- Fixed leading text of SpellMeleeRange.lua, the joined header lines of
write_lua_file. -/
def meleeHeaderStr : String :=
  String.intercalate "\n"
    [ "-- Auto-generated spell melee range data"
    , "-- Format: [SpellID] = \x7b IsMelee, MinRange, MaxRange \x7d"
    , "local SpellMeleeRange = \x7b\x7d"
    , ""
    , "-- Pre-allocate known size for better performance"
    , "SpellMeleeRange = setmetatable(\x7b\x7d, \x7b__index = function() return \x7bfalse, 0, 0\x7d end\x7d)"
    , "" ]

/-- Fixed trailing text of SpellMeleeRange.lua, the joined footer lines of
write_lua_file. -/
def meleeFooterStr : String :=
  String.intercalate "\n"
    [ ""
    , "-- Freeze the table for security and performance"
    , "setmetatable(SpellMeleeRange, nil)"
    , ""
    , "HeroDBC.DBC.SpellMeleeRange = SpellMeleeRange"
    , "return SpellMeleeRange" ]

/-- One entry line of SpellMeleeRange.lua; a missing range key is a lookup
error, which in the source escapes write_lua_file and is re-raised. -/
def meleeEntryLine (ranges : List (String × (String × String × Int))) (row : MiscRow) :
    Except String String :=
  match dictGet ranges row.id_range with
  | none => .error "key error"
  | some rd =>
      .ok ("SpellMeleeRange[" ++ row.id_parent ++ "] = \x7b "
        ++ (if rd.2.2 = MELEE_FLAG then "true" else "false")
        ++ ", " ++ rd.1 ++ ", " ++ rd.2.1 ++ " \x7d")

/-- Embedding of write_lua_file from SpellMeleeRange.py, producing the full
text of SpellMeleeRange.lua.  The chunked writes of the source concatenate
to the newline join of all entry lines, which is written directly here. -/
def write_lua_file_melee (valid_rows : List MiscRow)
    (ranges : List (String × (String × String × Int))) : Except String String := do
  let lines ← valid_rows.mapM (meleeEntryLine ranges)
  .ok (meleeHeaderStr ++ String.intercalate "\n" lines ++ meleeFooterStr)

/-! ## AzeritePower.py: the absent-input contract of main -/

/-- Minimal JSON document model for the structured-document outputs. -/
inductive Json where
  | jnull : Json
  | jbool : Bool → Json
  | jnum : Int → Json
  | jstr : String → Json
  | jarr : List Json → Json
  | jobj : List (String × Json) → Json

/-- One tier unlock record attached to an azerite item. -/
structure AzTier where
  tier : Int
  azerite_level : Int
deriving DecidableEq

/-- One azerite item record. -/
structure AzItem where
  itemId : Int
  tiers : List AzTier
deriving DecidableEq

/-- One power-set member record attached to an azerite power. -/
structure AzSet where
  classId : Int
  tier : Int
  index : Int
  items : List AzItem
deriving DecidableEq

/-- One assembled azerite power record, as built by main before writing. -/
structure AzPower where
  powerId : Int
  spellId : Int
  spellName : String
  specs : List Int
  sets : List AzSet
deriving DecidableEq

/-- Sorted set of a list of integers: the Python sorted(set(..)) idiom. -/
def sortedDedup (l : List Int) : List Int := List.insertionSort (fun a b => a ≤ b) l.dedup

/-- JSON form of a tier unlock record. -/
def azTierJson (t : AzTier) : Json :=
  Json.jobj [("tier", Json.jnum t.tier), ("azerite_level", Json.jnum t.azerite_level)]

/-- JSON form of an azerite item record. -/
def azItemJson (it : AzItem) : Json :=
  Json.jobj [("itemId", Json.jnum it.itemId), ("tiers", Json.jarr (it.tiers.map azTierJson))]

/-- JSON form of a power-set member record. -/
def azSetJson (s : AzSet) : Json :=
  Json.jobj [("classId", Json.jnum s.classId), ("tier", Json.jnum s.tier),
    ("index", Json.jnum s.index), ("items", Json.jarr (s.items.map azItemJson))]

/-- JSON form of a power record in the with-items output: the sets key is
present exactly when main attached a nonempty sets list. -/
def azPowerJsonWithItems (p : AzPower) : Json :=
  Json.jobj ([("powerId", Json.jnum p.powerId), ("spellId", Json.jnum p.spellId),
    ("spellName", Json.jstr p.spellName), ("specs", Json.jarr (p.specs.map Json.jnum))]
    ++ (if p.sets.isEmpty then [] else [("sets", Json.jarr (p.sets.map azSetJson))]))

/-- JSON form of a power record in the no-items output: write_json_file
replaces the sets list by the sorted class id set and the first tier. -/
def azPowerJsonNoItems (p : AzPower) : Json :=
  if p.sets.isEmpty then azPowerJsonWithItems p
  else
    Json.jobj [("powerId", Json.jnum p.powerId), ("spellId", Json.jnum p.spellId),
      ("spellName", Json.jstr p.spellName), ("specs", Json.jarr (p.specs.map Json.jnum)),
      ("classesId", Json.jarr ((sortedDedup (p.sets.map (fun s => s.classId))).map Json.jnum)),
      ("tier", Json.jnum ((p.sets.map (fun s => s.tier)).headI))]

/-- Embedding of write_json_file from AzeritePower.py as the JSON document
it serializes. -/
def write_json_file_az (data : List AzPower) (with_items : Bool) : Json :=
  Json.jarr (data.map (if with_items then azPowerJsonWithItems else azPowerJsonNoItems))

/-- Embedding of the control flow of main from AzeritePower.py around the
azerite source file check: when AzeriteEmpoweredItem.csv is absent the unit
writes the two empty documents and returns; otherwise it runs the rest of
the pipeline, which is abstracted as the rest argument because the claim
only concerns the absent branch. -/
def azeriteMain (azeriteSourceExists : Bool)
    (rest : Except String (List (String × Json))) : Except String (List (String × Json)) :=
  if azeriteSourceExists then rest
  else .ok [("AzeritePowerWithItems.json", write_json_file_az [] true),
            ("AzeritePower.json", write_json_file_az [] false)]

/-! ## SpellTickTime.py: priority selection in process_spell_data -/

/-- One raw row of SpellEffect.csv, restricted to the columns the tick-time
unit reads. -/
structure EffRow where
  id_parent : String
  amplitude : String
  id_mechanic : String
  id_effect : String
deriving DecidableEq

/-- One validated effect of a spell group, as stored by process_spell_data:
the amplitude, the stored mechanic flag (mechanic different from 15), the
effect type, and the DoT-priority flag (mechanic in the set 6, 7, 8). -/
structure Effect where
  amplitude : Int
  mechanic : Bool
  effect_type : Int
  priority : Bool
deriving DecidableEq

/-- Parse one row into the effect group of the given spell id, mirroring the
grouping loop of process_spell_data: conversion failures and non-positive
amplitudes skip the row. -/
def parseEffect (pid : Int) (r : EffRow) : Option Effect :=
  match pyInt r.amplitude with
  | none => none
  | some amp =>
    if amp ≤ 0 then none
    else
      match pyInt r.id_parent with
      | none => none
      | some p =>
        if p = pid then
          match pyInt r.id_effect with
          | none => none
          | some et =>
              some ⟨amp, r.id_mechanic ≠ "15", et,
                r.id_mechanic = "6" ∨ r.id_mechanic = "7" ∨ r.id_mechanic = "8"⟩
        else none

/-- The effect group of one spell id, in input order. -/
def validEffects (rows : List EffRow) (pid : Int) : List Effect :=
  rows.filterMap (parseEffect pid)

/-- Sort key of process_spell_data: the DoT-priority flag first, then the
amplitude. -/
def tickKey (e : Effect) : ℕ × Int := ((if e.priority then 1 else 0), e.amplitude)

/-- Lexicographic order on tick-time sort keys, as compared by the Python
tuple order. -/
def keyLe (x y : ℕ × Int) : Prop := x.1 < y.1 ∨ (x.1 = y.1 ∧ x.2 ≤ y.2)

instance : DecidableRel keyLe := fun x y => by unfold keyLe; exact inferInstance

/-- The stable descending sort of the effect group performed by the Python
list sort with reverse set: an element is placed before another exactly when
its key is greater or equal, which keeps ties in input order. -/
def sortEffectsDesc (l : List Effect) : List Effect :=
  List.insertionSort (fun a b => keyLe (tickKey b) (tickKey a)) l

/-- The pair emitted for one spell id by process_spell_data: amplitude and
mechanic flag of the first element of the priority-sorted group. -/
def tickEntry (rows : List EffRow) (pid : Int) : Option (Int × Bool) :=
  match sortEffectsDesc (validEffects rows pid) with
  | [] => none
  | w :: _ => some (w.amplitude, w.mechanic)

/-! ## SpellGCD.py: row processing and the Lua serializer -/

/-- One raw row of SpellCooldowns.csv, restricted to the columns the GCD
unit reads. -/
structure GCDRow where
  id_parent : String
  gcd_cooldown : String
deriving DecidableEq

/-- One validated GCD entry. -/
structure GCDData where
  spell_id : Int
  gcd : ℚ
deriving DecidableEq

/-- The named GCD windows of SpellGCD.py. -/
def GCD_RANGES : List (ℚ × ℚ) :=
  [ (0, 0)
  , (mkRat 1 10, mkRat 1 4)
  , (mkRat 1 2, mkRat 3 2)
  , (2, 20)
  , (30, 180)
  , (181, 2000) ]

/-- Embedding of validate_gcd from SpellGCD.py. -/
def validate_gcd (g : ℚ) : Bool :=
  if g = 0 then true
  else GCD_RANGES.any (fun p => decide (p.1 ≤ g) && decide (g ≤ p.2))

/-- One iteration of the row loop of process_chunk from SpellGCD.py:
parse, rescale millisecond values, round to three digits, validate. -/
def processChunkRow (r : GCDRow) : Option GCDData :=
  match pyInt r.id_parent, pyFloat r.gcd_cooldown with
  | some sid, some g0 =>
      let g1 := if mkRat 3 2 < g0 then qDiv1000 g0 else g0
      if 0 < sid then
        let g2 := pyRound g1 3
        if validate_gcd g2 then some ⟨sid, g2⟩ else none
      else none
  | _, _ => none

/-- Embedding of process_chunk from SpellGCD.py on one row list. -/
def process_chunk (rows : List GCDRow) : List GCDData := rows.filterMap processChunkRow

/-- Embedding of process_spell_data from SpellGCD.py: the chunked parallel
map concatenates to the row-order map over the whole list, then the result
is stably sorted by spell id. -/
def process_spell_data_gcd (rows : List GCDRow) : List GCDData :=
  List.insertionSort (fun a b => a.spell_id ≤ b.spell_id) (process_chunk rows)

/-- One entry line of SpellGCD.lua. -/
def gcdLine (d : GCDData) : String :=
  "SpellGCD[" ++ toString d.spell_id ++ "] = " ++ pyFormatFixed d.gcd 3

/-- Entry section of SpellGCD.lua: the chunked writes concatenate to the
newline join of all entry lines followed by one newline. -/
def gcdEntriesStr (entries : List GCDData) : String :=
  if entries.isEmpty then ""
  else String.intercalate "\n" (entries.map gcdLine) ++ "\n"

/-- Fixed leading text of SpellGCD.lua, which embeds the entry count. -/
def gcdHeaderStr (n : ℕ) : String :=
  String.intercalate "\n"
    [ "-- Auto-generated spell GCD data"
    , "-- Format: [SpellID] = GCDDuration"
    , "local SpellGCD = \x7b\x7d"
    , ""
    , "-- Pre-allocate known size for better performance"
    , "SpellGCD = setmetatable(\x7b\x7d, \x7b__index = function() return 0.0 end\x7d)"
    , "-- Estimated GCD entries count: " ++ toString n
    , "" ]

/-- Fixed trailing text of SpellGCD.lua. -/
def gcdFooterStr : String :=
  String.intercalate "\n"
    [ ""
    , "-- Freeze the table for security and performance"
    , "setmetatable(SpellGCD, nil)"
    , ""
    , "HeroDBC.DBC.SpellGCD = SpellGCD"
    , "return SpellGCD" ]

/-- Embedding of write_lua_file from SpellGCD.py, producing the full text of
SpellGCD.lua. -/
def write_lua_file_gcd (entries : List GCDData) : String :=
  gcdHeaderStr entries.length ++ gcdEntriesStr entries ++ gcdFooterStr

/-! ## Talent.py and Soulbinds.py: the hierarchical assembler -/

/-- The leaf payload stored for one talent position. -/
structure TalentData where
  talentId : Int
  spellId : Int
  spellName : String
deriving DecidableEq

/-- One validated talent record as returned by process_talent_entry, ready
for insertion into the nested talent tree. -/
structure TalentRec where
  class_id : String
  spec_id : String
  row : String
  col : String
  talent : TalentData
deriving DecidableEq

/-- The nested talent output tree: class, spec, row, column. -/
abbrev TalTree := List (String × List (String × List (String × List (String × TalentData))))

/-- The full key path of a talent record. -/
def talPath (r : TalentRec) : String × String × String × String :=
  (r.class_id, r.spec_id, r.row, r.col)

/-- Embedding of the insertion step of process_talent_data from Talent.py:
initialize missing levels, then assign the leaf. -/
def talInsert (t : TalTree) (r : TalentRec) : TalTree :=
  let m1 := (dictGet t r.class_id).getD []
  let m2 := (dictGet m1 r.spec_id).getD []
  let m3 := (dictGet m2 r.row).getD []
  dictSet t r.class_id (dictSet m1 r.spec_id (dictSet m2 r.row (dictSet m3 r.col r.talent)))

/-- Embedding of the fold of process_talent_data over validated records. -/
def processTalentRecords (rs : List TalentRec) : TalTree := rs.foldl talInsert []

/-- Lookup of a full key path in the talent tree; a missing intermediate
level reads as the empty map, so the result is none. -/
def talLookup (t : TalTree) (p : String × String × String × String) : Option TalentData :=
  dictGet ((dictGet ((dictGet ((dictGet t p.1).getD []) p.2.1).getD []) p.2.2.1).getD []) p.2.2.2

/-- The leaf payload stored for one soulbind tree position, mirroring the
ability dictionary built by process_talents with its optional keys. -/
structure AbilityData where
  soulbindAbilityId : Int
  soulbindAbilityName : String
  soulbindAbilitySpellId : Option Int
  soulbindAbilityConduitType : Option Int
  soulbindAbilityPrereq : Option Int
deriving DecidableEq

/-- One validated soulbind talent record ready for insertion: the ability
payload is already enriched with the resolved spell data, which the source
computes before the insertion. -/
structure SoulRec where
  tree_id : Int
  tier : Int
  ui_order : Int
  ability : AbilityData
deriving DecidableEq

/-- The nested soulbind output tree: tree, tier, order. -/
abbrev SoulTree := List (Int × List (Int × List (Int × AbilityData)))

/-- The full key path of a soulbind record. -/
def soulPath (r : SoulRec) : Int × Int × Int := (r.tree_id, r.tier, r.ui_order)

/-- Embedding of the insertion step of process_talents from Soulbinds.py:
the nested defaultdict assignment. -/
def soulInsert (t : SoulTree) (r : SoulRec) : SoulTree :=
  let m1 := (dictGet t r.tree_id).getD []
  let m2 := (dictGet m1 r.tier).getD []
  dictSet t r.tree_id (dictSet m1 r.tier (dictSet m2 r.ui_order r.ability))

/-- Embedding of the fold of process_talents over validated records. -/
def processSoulRecords (rs : List SoulRec) : SoulTree := rs.foldl soulInsert []

/-- Lookup of a full key path in the soulbind tree; a missing intermediate
level reads as the empty map, so the result is none. -/
def soulLookup (t : SoulTree) (p : Int × Int × Int) : Option AbilityData :=
  dictGet ((dictGet ((dictGet t p.1).getD []) p.2.1).getD []) p.2.2

/-! ## ItemData.py: item filtering and source classification -/

/-- One raw row of ItemSparse.csv, restricted to the columns the item-data
unit reads. -/
structure ItemRow where
  id : String
  name : String
  ilevel : String
  quality : String
  inv_type : String
  material : String
  stat_type_1 : String
  stat_type_2 : String
  stat_type_3 : String
  stat_type_4 : String
  stat_type_5 : String
  socket_color_1 : String
  socket_color_2 : String
  socket_color_3 : String
deriving DecidableEq

/-- One emitted item record. -/
structure ItemData where
  id : Int
  name : String
  ilevel : Int
  type : String
  material : String
  stats : List String
  gems : Int
  source : String
deriving DecidableEq

/-- The item level allow-set of ItemData.py. -/
def VALID_ITEM_LEVELS : List Int := [158, 200, 226, 233]

/-- Embedding of the inventory type map of ItemData.py, with the empty
string as the dict-get default. -/
def ITEM_TYPE_MAP (n : Int) : String :=
  if n = 1 then "head"
  else if n = 2 then "neck"
  else if n = 3 then "shoulders"
  else if n = 5 then "chest"
  else if n = 6 then "waist"
  else if n = 7 then "legs"
  else if n = 8 then "feet"
  else if n = 9 then "wrists"
  else if n = 10 then "hands"
  else if n = 11 then "finger"
  else if n = 12 then "trinket"
  else if n = 13 then "weapon"
  else if n = 14 then "shield"
  else if n = 15 then "ranged"
  else if n = 16 then "back"
  else if n = 17 then "2hweapon"
  else if n = 20 then "chest"
  else ""

/-- Embedding of the material map of ItemData.py. -/
def ITEM_MATERIAL_MAP (n : Int) : String :=
  if n = 6 then "plate"
  else if n = 5 then "mail"
  else if n = 8 then "leather"
  else if n = 7 then "cloth"
  else ""

/-- Embedding of the stat type map of ItemData.py, with the absent case as
none, matching the dict-get without default. -/
def STAT_TYPE_MAP (n : Int) : Option String :=
  if n = 3 then some "agi"
  else if n = 4 then some "str"
  else if n = 5 then some "int"
  else if n = 7 then some "stam"
  else if n = 32 then some "crit"
  else if n = 36 then some "haste"
  else if n = 40 then some "vers"
  else if n = 49 then some "mastery"
  else if n = 50 then some "bonus_armor"
  else if n = 62 then some "leech"
  else if n = 63 then some "avoidance"
  else if n = 71 then some "agi/str/int"
  else if n = 72 then some "agi/str"
  else if n = 73 then some "agi/int"
  else if n = 74 then some "str/int"
  else none

/-- Embedding of get_item_stats from ItemData.py: unparsable or unmapped
stat slots are skipped. -/
def get_item_stats (r : ItemRow) : List String :=
  [r.stat_type_1, r.stat_type_2, r.stat_type_3, r.stat_type_4, r.stat_type_5].filterMap
    (fun s => (pyInt s).bind STAT_TYPE_MAP)

/-- Embedding of compute_gem_number from ItemData.py: a parse failure on any
socket column makes the whole count zero. -/
def compute_gem_number (r : ItemRow) : Int :=
  match pyInt r.socket_color_1, pyInt r.socket_color_2, pyInt r.socket_color_3 with
  | some a, some b, some c =>
      (if a ≠ 0 then 1 else 0) + (if b ≠ 0 then 1 else 0) + (if c ≠ 0 then 1 else 0)
  | _, _, _ => 0

/-- Embedding of compute_source from ItemData.py. -/
def compute_source (item_id : Int) (_quality : Int) (_item_type : String) (ilevel : Int)
    (encounter_table : List (Int × Int)) : String :=
  if ilevel = 158 then
    if (dictGet encounter_table item_id).isSome then "dungeon" else "pvp"
  else if ilevel = 200 then
    if (dictGet encounter_table item_id).isSome then "castle_nathria" else "other"
  else if ilevel = 226 ∨ ilevel = 233 then "sanctum_of_domination"
  else ""

/-- Embedding of process_item_data from ItemData.py: parse and filter one
item row, in the evaluation order of the source. -/
def process_item_data (r : ItemRow) (encounter_table : List (Int × Int)) : Option ItemData :=
  match pyInt r.id with
  | none => none
  | some item_id =>
    match pyInt r.ilevel with
    | none => none
    | some ilevel =>
      if ilevel ∈ VALID_ITEM_LEVELS then
        match pyInt r.inv_type with
        | none => none
        | some inv_type =>
          let item_type := ITEM_TYPE_MAP inv_type
          if item_type = "" then none
          else
            match pyInt r.material with
            | none => none
            | some mat =>
              match pyInt r.quality with
              | none => none
              | some q =>
                some ⟨item_id, r.name, ilevel, item_type, ITEM_MATERIAL_MAP mat,
                  get_item_stats r, compute_gem_number r,
                  compute_source item_id q item_type ilevel encounter_table⟩
      else none

/-- The source labels reachable for emitted items. -/
def itemSourceValues : List String :=
  ["dungeon", "pvp", "castle_nathria", "other", "sanctum_of_domination"]

/-! ## Shared helpers: executable substring search -/

/-- Executable prefix test on character lists. -/
def listPrefixOf : List Char → List Char → Bool
  | [], _ => true
  | _ :: _, [] => false
  | a :: xs, b :: ys => a == b && listPrefixOf xs ys

/-- Executable substring test on character lists. -/
def containsSub (pat : List Char) : List Char → Bool
  | [] => pat.isEmpty
  | c :: rest => listPrefixOf pat (c :: rest) || containsSub pat rest

/-! ## Helper lemmas: dictionaries and rational bridges -/

theorem dictGet_dictSet_self {κ α : Type} [DecidableEq κ] (m : List (κ × α)) (k : κ) (v : α) :
    dictGet (dictSet m k v) k = some v := by
  induction m with
  | nil => simp [dictSet, dictGet]
  | cons p rest ih =>
      by_cases h : p.1 = k
      · simp [dictSet, dictGet, h]
      · simp [dictSet, dictGet, h, ih]

theorem dictGet_dictSet_ne {κ α : Type} [DecidableEq κ] (m : List (κ × α)) (k k' : κ) (v : α)
    (h : k' ≠ k) : dictGet (dictSet m k v) k' = dictGet m k' := by
  have h1 : ¬ (k = k') := fun e => h e.symm
  induction m with
  | nil => simp [dictSet, dictGet, h1]
  | cons p rest ih =>
      by_cases hp : p.1 = k
      · have h2 : ¬ (p.1 = k') := by rw [hp]; exact h1
        simp [dictSet, dictGet, hp, h1, h2]
      · simp [dictSet, dictGet, hp, ih]

theorem rat_num_eq (a : ℚ) : (a.num : ℚ) = a * a.den := by
  have h := Rat.num_div_den a
  rwa [div_eq_iff (by positivity : ((a.den : ℚ)) ≠ 0)] at h

theorem qAdd_eq (a b : ℚ) : qAdd a b = a + b := by
  unfold qAdd
  rw [Rat.mkRat_eq_div]
  push_cast
  rw [div_eq_iff (by positivity), rat_num_eq, rat_num_eq]
  ring

theorem qMul_eq (a b : ℚ) : qMul a b = a * b := by
  unfold qMul
  rw [Rat.mkRat_eq_div]
  push_cast
  rw [div_eq_iff (by positivity), rat_num_eq, rat_num_eq]
  ring

/-! ## Helper lemmas: the modifier table -/

theorem modGetTable_modSetTableEntry_same (m : ModPPM) (parent mt j : Int) (v : ℚ) :
    modGetTable (modSetTableEntry m parent mt j v) parent mt
      = dictSet (modGetTable m parent mt) j v := by
  simp [modSetTableEntry, modGetTable, dictGet_dictSet_self]

theorem classModLoop_of_nonpos (base coeff : ℚ) (parent mt : Int)
    (h : resolvedValue base coeff ≤ 0) :
    ∀ (n : ℕ) (rm : Int) (m : ModPPM), classModLoop base coeff parent mt n rm m = m := by
  intro n
  induction n with
  | zero => intro rm m; rfl
  | succ i ih =>
      intro rm m
      simp only [classModLoop]
      by_cases hbr : computeClass ((i + 1 : ℕ) : Int) ≠ 0
          ∧ 0 ≤ rm - computeClass ((i + 1 : ℕ) : Int)
      · rw [if_pos hbr, if_neg (not_lt.mpr h)]
        exact ih _ _
      · rw [if_neg hbr]
        exact ih _ _

theorem classModLoop_table_entries (base coeff : ℚ) (parent mt : Int) :
    ∀ (n : ℕ) (rm : Int) (m : ModPPM) (cat : Int) (q : ℚ),
      dictGet (modGetTable (classModLoop base coeff parent mt n rm m) parent mt) cat = some q →
      dictGet (modGetTable m parent mt) cat = some q ∨ q = resolvedValue base coeff := by
  intro n
  induction n with
  | zero => intro rm m cat q h; exact Or.inl h
  | succ i ih =>
      intro rm m cat q h
      simp only [classModLoop] at h
      by_cases hbr : computeClass ((i + 1 : ℕ) : Int) ≠ 0 ∧ 0 ≤ rm - computeClass ((i + 1 : ℕ) : Int)
      · rw [if_pos hbr] at h
        by_cases hv : 0 < resolvedValue base coeff
        · rw [if_pos hv] at h
          rcases ih _ _ _ _ h with h1 | h1
          · rw [modGetTable_modSetTableEntry_same] at h1
            by_cases hc : cat = ((i + 1 : ℕ) : Int)
            · subst hc
              rw [dictGet_dictSet_self] at h1
              exact Or.inr (Option.some_injective _ h1).symm
            · rw [dictGet_dictSet_ne _ _ _ _ hc] at h1
              exact Or.inl h1
          · exact Or.inr h1
        · rw [if_neg hv] at h
          exact ih _ _ _ _ h
      · rw [if_neg hbr] at h
        exact ih _ _ _ _ h

/-! ## Claim C1 -/

/-- C1: for every numeric-kind modifier row (class, spec or race kind) whose
parent id has a known base PPM value b and whose coefficient c is nonzero,
the resolved modifier value equals round(b * (1.0 + c), 6), and the value is
recorded in the modifier set only when that result is strictly positive: the
spec and race kinds record it at the category id exactly when positive, and
the class kind leaves the modifier set unchanged when it is not positive and
only ever adds entries carrying that value. -/
theorem c1_numeric_modifier_scaling
    (row : ModRow) (m : ModPPM) (parent : Int) (base_ppm : List (Int × ℚ))
    (b c : ℚ) (chr mt : Int)
    (hb : dictGet base_ppm parent = some b)
    (_hc : c ≠ 0)
    (hchr : pyInt row.id_chr_spec = some chr)
    (hmt : pyInt row.unk_1 = some mt) :
    (processSpecRaceModifiers row m parent base_ppm c =
      .ok (if 0 < resolvedValue b c
            then modSetTableEntry m parent mt chr (resolvedValue b c) else m))
    ∧ (∀ m', processClassModifiers row m parent base_ppm c = .ok m' →
        ((resolvedValue b c ≤ 0 → m' = m)
          ∧ ∀ cat q, dictGet (modGetTable m' parent mt) cat = some q →
              dictGet (modGetTable m parent mt) cat = some q ∨ q = resolvedValue b c))
    ∧ resolvedValue b c = pyRound (b * (1 + c)) 6 := by
  refine ⟨?_, ?_, ?_⟩
  · simp [processSpecRaceModifiers, hchr, hb, hmt]
  · intro m' h
    simp [processClassModifiers, hchr, hb, hmt] at h
    constructor
    · intro hv
      rw [← h]
      exact classModLoop_of_nonpos b c parent mt hv 13 chr m
    · intro cat q hq
      rw [← h] at hq
      exact classModLoop_table_entries b c parent mt 13 chr m cat q hq
  · unfold resolvedValue
    rw [qMul_eq, qAdd_eq]

/-- Witness for C1 at the concrete instance of the claim: base 2.5 and
coefficient 0.2 resolve to exactly 3. -/
theorem c1_numeric_modifier_scaling_witness :
    dictGet [((500 : Int), mkRat 5 2)] 500 = some (mkRat 5 2)
    ∧ (mkRat 1 5 : ℚ) ≠ 0
    ∧ pyInt "62" = some 62
    ∧ pyInt "4" = some 4
    ∧ resolvedValue (mkRat 5 2) (mkRat 1 5) = 3
    ∧ ((processSpecRaceModifiers ⟨"500", "4", "0.2", "62"⟩ [] 500 [((500 : Int), mkRat 5 2)]
          (mkRat 1 5) =
        .ok (if 0 < resolvedValue (mkRat 5 2) (mkRat 1 5)
              then modSetTableEntry [] 500 4 62 (resolvedValue (mkRat 5 2) (mkRat 1 5)) else []))
      ∧ (∀ m', processClassModifiers ⟨"500", "4", "0.2", "62"⟩ [] 500 [((500 : Int), mkRat 5 2)]
            (mkRat 1 5) = .ok m' →
          ((resolvedValue (mkRat 5 2) (mkRat 1 5) ≤ 0 → m' = [])
            ∧ ∀ cat q, dictGet (modGetTable m' 500 4) cat = some q →
                dictGet (modGetTable [] 500 4) cat = some q
                  ∨ q = resolvedValue (mkRat 5 2) (mkRat 1 5)))
      ∧ resolvedValue (mkRat 5 2) (mkRat 1 5) = pyRound ((mkRat 5 2) * (1 + mkRat 1 5)) 6) :=
  ⟨by decide, by decide, by decide, by decide, by decide,
    c1_numeric_modifier_scaling ⟨"500", "4", "0.2", "62"⟩ [] 500 [((500 : Int), mkRat 5 2)]
      (mkRat 5 2) (mkRat 1 5) 62 4 (by decide) (by decide) (by decide) (by decide)⟩

/-! ## Claim C2 -/

theorem computeClass_pow : ∀ i : ℕ, i < 13 → computeClass ((i + 1 : ℕ) : Int) = 2 ^ i := by
  decide

theorem resolvedClasses_sum : ∀ (n : ℕ), n ≤ 13 → ∀ (mask : Int), 0 ≤ mask → mask < 2 ^ n →
    classBitSum (resolvedClasses n mask) = mask := by
  intro n
  induction n with
  | zero =>
      intro _ mask h0 h1
      rw [pow_zero] at h1
      simp only [resolvedClasses, classBitSum, List.map_nil, List.sum_nil]
      omega
  | succ i ih =>
      intro hn mask h0 h1
      have hcp : computeClass ((i + 1 : ℕ) : Int) = 2 ^ i := computeClass_pow i (by omega)
      have hpos : (0 : Int) < 2 ^ i := pow_pos (by norm_num) i
      rw [pow_succ] at h1
      simp only [resolvedClasses]
      by_cases hbr : computeClass ((i + 1 : ℕ) : Int) ≠ 0
          ∧ 0 ≤ mask - computeClass ((i + 1 : ℕ) : Int)
      · rw [if_pos hbr]
        have hb0 : 0 ≤ mask - computeClass ((i + 1 : ℕ) : Int) := hbr.2
        have hb2 : mask - computeClass ((i + 1 : ℕ) : Int) < 2 ^ i := by rw [hcp]; omega
        have h2 := ih (by omega) _ hb0 hb2
        simp only [classBitSum, List.map_cons, List.sum_cons] at h2 ⊢
        rw [h2]
        omega
      · rw [if_neg hbr]
        have hne : computeClass ((i + 1 : ℕ) : Int) ≠ 0 := by rw [hcp]; exact hpos.ne'
        have hlt : mask < 2 ^ i := by
          by_contra hge
          exact hbr ⟨hne, by rw [hcp]; omega⟩
        exact ih (by omega) mask h0 hlt

/-- C2 (amended): for every class-kind bitmask that is non-negative and
below 2 to the 13, the range representable by the thirteen enumerated class
bits, the high-to-low subtract-and-test decomposition of
processClassModifiers resolves a set of class ids whose summed bit values
reproduce the bitmask exactly.  For masks of 8192 or more the excess above
8191 is silently lost, so the round-trip fails there. -/
theorem c2_bitmask_roundtrip (mask : Int) (h0 : 0 ≤ mask) (h1 : mask < 8192) :
    classBitSum (resolvedClasses 13 mask) = mask := by
  have h13 : (2 : Int) ^ 13 = 8192 := by norm_num
  exact resolvedClasses_sum 13 le_rfl mask h0 (by rw [h13]; exact h1)

/-- Witness for C2 at the concrete mask 4097, the Warrior and Evoker bits. -/
theorem c2_bitmask_roundtrip_witness :
    (0 : Int) ≤ 4097 ∧ (4097 : Int) < 8192
    ∧ classBitSum (resolvedClasses 13 4097) = 4097 :=
  ⟨by decide, by decide, c2_bitmask_roundtrip 4097 (by decide) (by decide)⟩

/-- Counterexample for C2 as stated: the claim quantifies over every
non-negative bitmask, but at mask 8192 the decomposition only recovers
8191, because no enumerated bit covers bit 14. -/
theorem c2_bitmask_roundtrip_counterexample :
    classBitSum (resolvedClasses 13 8192) ≠ 8192 := by decide

/-! ## Claim C3 -/

theorem loadModPPM_abort_aux (base : List (Int × ℚ)) (bad : ModRow) (rs2 : List ModRow)
    (e : String) (hbad : ∀ m : ModPPM, loadModPPMStep base m bad = .error e) :
    ∀ (rs1 : List ModRow),
      (∀ (m : ModPPM) (r : ModRow), r ∈ rs1 → ∃ m', loadModPPMStep base m r = .ok m') →
      ∀ m : ModPPM, List.foldlM (loadModPPMStep base) m (rs1 ++ bad :: rs2) = .error e := by
  intro rs1
  induction rs1 with
  | nil =>
      intro _ m
      simp only [List.nil_append, List.foldlM_cons, hbad m]
      rfl
  | cons r rest ih =>
      intro hok m
      obtain ⟨m', hm'⟩ := hok m r (List.mem_cons_self r rest)
      simp only [List.cons_append, List.foldlM_cons, hm']
      exact ih (fun m r hr => hok m r (List.mem_cons_of_mem _ hr)) m'

/-- C3 (amended): a type-conversion error on a modifier row is reported and
propagated: the whole table load aborts with that error, so the rows after
the failing row are never processed.  The claim as stated, that the failing
row is skipped and processing continues, does not hold. -/
theorem c3_conversion_error_aborts_table (base : List (Int × ℚ)) (rs1 : List ModRow)
    (bad : ModRow) (rs2 : List ModRow) (e : String)
    (hbad : ∀ m : ModPPM, loadModPPMStep base m bad = .error e)
    (hok : ∀ (m : ModPPM) (r : ModRow), r ∈ rs1 → ∃ m', loadModPPMStep base m r = .ok m') :
    loadModPPM base (rs1 ++ bad :: rs2) = .error e :=
  loadModPPM_abort_aux base bad rs2 e hbad rs1 hok []

/-- Witness for C3 (amended) on a concrete table: a malformed parent id
aborts the load even though a valid row follows. -/
theorem c3_conversion_error_aborts_table_witness :
    (∀ m : ModPPM, loadModPPMStep [((1 : Int), (2 : ℚ))] m ⟨"x", "4", "0.5", "62"⟩ =
      .error "conversion error")
    ∧ loadModPPM [((1 : Int), (2 : ℚ))]
        ([] ++ ⟨"x", "4", "0.5", "62"⟩ :: [⟨"1", "4", "0.5", "62"⟩]) =
      .error "conversion error" :=
  ⟨fun _ => rfl,
    c3_conversion_error_aborts_table [((1 : Int), (2 : ℚ))] [] ⟨"x", "4", "0.5", "62"⟩
      [⟨"1", "4", "0.5", "62"⟩] "conversion error" (fun _ => rfl)
      (fun _ r hr => absurd hr (List.not_mem_nil r))⟩

/-- Counterexample for C3 as stated: with a malformed first row and a valid
second row, the load returns an error and the valid row is never recorded,
instead of skipping the bad row and continuing. -/
theorem c3_row_skip_counterexample :
    loadModPPM [((1 : Int), (2 : ℚ))] [⟨"x", "4", "0.5", "62"⟩, ⟨"1", "4", "0.5", "62"⟩] =
      .error "conversion error"
    ∧ loadModPPM [((1 : Int), (2 : ℚ))] [⟨"1", "4", "0.5", "62"⟩] =
      .ok [(1, [(4, ModData.table [(62, (3 : ℚ))])])]
    ∧ loadModPPM [((1 : Int), (2 : ℚ))] [⟨"x", "4", "0.5", "62"⟩, ⟨"1", "4", "0.5", "62"⟩] ≠
      loadModPPM [((1 : Int), (2 : ℚ))] [⟨"1", "4", "0.5", "62"⟩] := by
  refine ⟨rfl, rfl, fun h => ?_⟩
  rw [show loadModPPM [((1 : Int), (2 : ℚ))]
        [⟨"x", "4", "0.5", "62"⟩, ⟨"1", "4", "0.5", "62"⟩] =
      Except.error "conversion error" from rfl] at h
  rw [show loadModPPM [((1 : Int), (2 : ℚ))] [⟨"1", "4", "0.5", "62"⟩] =
      Except.ok [((1 : Int), [((4 : Int), ModData.table [((62 : Int), (3 : ℚ))])])] from
    rfl] at h
  exact Except.noConfusion h

/-! ## Claim C4 -/

/-- C4 (amended): for rows whose fields parse, the item-range filter
process_spell_ranges accepts a row exactly when one of its two range pairs
has minimum range 0 and maximum range within the inclusive window from 5 to
100, as the claim states; the melee-range filter process_spell_range_data,
however, accepts exactly when the hostile maximum range is positive and at
most 100, ignoring the minimum range, so its boundary behaviour differs
from the claim below 5. -/
theorem c4_range_filter_characterization
    (r1 : IRRow) (mn1 mx1 mn2 mx2 : ℚ) (fl1 : Int)
    (r2 : MRRow) (mn mx : ℚ) (fl2 : Int)
    (h1 : pyFloat r1.min_range_1 = some mn1) (h2 : pyFloat r1.max_range_1 = some mx1)
    (h3 : pyFloat r1.min_range_2 = some mn2) (h4 : pyFloat r1.max_range_2 = some mx2)
    (h5 : pyInt r1.flag = some fl1)
    (h6 : pyFloat r2.min_range_1 = some mn) (h7 : pyFloat r2.max_range_1 = some mx)
    (h8 : pyInt r2.flag = some fl2) :
    (irAccepts r1 = true ↔ (specRangeAccept mn1 mx1 ∨ specRangeAccept mn2 mx2))
    ∧ (mrAccepts r2 = true ↔ (0 < mx ∧ mx ≤ 100)) := by
  constructor
  · simp only [irAccepts, process_spell_ranges, List.foldl_cons, List.foldl_nil,
      processSpellRangesRow, processFriendlyRange, h1, h2, h3, h4, h5,
      MIN_VALID_RANGE, MAX_VALID_RANGE, specRangeAccept]
    by_cases c1 : mn1 = 0 ∧ (5 : ℚ) ≤ mx1 ∧ mx1 ≤ (100 : ℚ) <;>
      by_cases c2 : mn2 = 0 ∧ (5 : ℚ) ≤ mx2 ∧ mx2 ≤ (100 : ℚ) <;>
        simp [c1, c2, dictGet_dictSet_self, dictGet]
  · simp only [mrAccepts, process_spell_range_data, List.foldl_cons, List.foldl_nil,
      processSpellRangeDataRow, h6, h7, h8, MAX_RANGE_THRESHOLD]
    by_cases c : 0 < mx ∧ mx ≤ (100 : ℚ) <;>
      simp [c, dictGet_dictSet_self, dictGet]

/-- Witness for C4 at the boundary instances of the claim: an item-range row
with minimum 0 and maximum exactly 5 is accepted, and a melee-range row with
maximum exactly 100 is accepted. -/
theorem c4_range_filter_characterization_witness :
    pyFloat "0" = some 0 ∧ pyFloat "5.0" = some 5 ∧ pyFloat "1" = some 1
    ∧ pyFloat "7" = some 7 ∧ pyInt "1" = some 1 ∧ pyFloat "100.0" = some 100
    ∧ ((irAccepts ⟨"1", "0", "5.0", "1", "7", "1"⟩ = true ↔
          (specRangeAccept 0 5 ∨ specRangeAccept 1 7))
        ∧ (mrAccepts ⟨"2", "0", "100.0", "1"⟩ = true ↔ (0 < (100 : ℚ) ∧ (100 : ℚ) ≤ 100))) :=
  ⟨by decide, by decide, by decide, by decide, by decide, by decide,
    c4_range_filter_characterization ⟨"1", "0", "5.0", "1", "7", "1"⟩ 0 5 1 7 1
      ⟨"2", "0", "100.0", "1"⟩ 0 100 1
      (by decide) (by decide) (by decide) (by decide) (by decide)
      (by decide) (by decide) (by decide)⟩

/-- Counterexample for C4 as stated: the claim requires a row with maximum
range 4.999 to be rejected by both filters, but the melee-range filter
accepts it, since it only requires a positive maximum of at most 100. -/
theorem c4_range_filter_counterexample :
    mrAccepts ⟨"7", "0", "4.999", "0"⟩ = true
    ∧ pyFloat "4.999" = some (mkRat 4999 1000)
    ∧ ¬ specRangeAccept 0 (mkRat 4999 1000) := by
  refine ⟨by decide, by decide, fun h => absurd h.2.1 (by decide)⟩


/-! ## Claim C5 -/

theorem strDataSuffix_of_append (a b : String) : b.data <:+ (a ++ b).data := by
  rw [String.data_append]
  exact List.suffix_append a.data b.data

theorem strInfix_of_split (pat s1 s2 big : String) (h : big = s1 ++ pat ++ s2) :
    pat.data <:+: big.data := by
  subst h
  refine ⟨s1.data, s2.data, ?_⟩
  simp [String.data_append, List.append_assoc]

theorem strSuffix_of_split (pat s1 big : String) (h : big = s1 ++ pat) :
    pat.data <:+ big.data := by
  subst h
  exact strDataSuffix_of_append s1 pat

theorem listPrefixOf_iff : ∀ (p s : List Char), listPrefixOf p s = true ↔ p <+: s := by
  intro p
  induction p with
  | nil => intro s; simp [listPrefixOf]
  | cons a xs ih =>
      intro s
      cases s with
      | nil => simp [listPrefixOf]
      | cons b ys =>
          simp [listPrefixOf, List.cons_prefix_cons, ih, Bool.and_eq_true, beq_iff_eq]

theorem containsSub_iff : ∀ (p s : List Char), containsSub p s = true ↔ p <:+: s := by
  intro p s
  induction s with
  | nil => simp [containsSub, List.isEmpty_iff]
  | cons c rest ih =>
      simp [containsSub, Bool.or_eq_true, listPrefixOf_iff, ih, List.infix_cons_iff]

/-- C5 (amended): the melee-range serializer write_lua_file emits output
whose fixed footer removes the default-value metatable, assigns the table to
the fully qualified global name HeroDBC.DBC.SpellMeleeRange and ends with a
return of the table; the RPPM serializer writeLuaOutput ends with its fixed
footer, which assigns HeroDBC.DBC.SpellRPPM, but that footer neither
removes a metatable nor ends with a return of the table, so the claim as
stated fails for it. -/
theorem c5_serializer_footer :
    (∀ (rows : List MiscRow) (ranges : List (String × (String × String × Int))) (out : String),
        write_lua_file_melee rows ranges = .ok out →
        meleeFooterStr.data <:+ out.data
        ∧ ("setmetatable(SpellMeleeRange, nil)").data <:+: out.data
        ∧ ("HeroDBC.DBC.SpellMeleeRange = SpellMeleeRange").data <:+: out.data
        ∧ ("return SpellMeleeRange").data <:+ out.data)
    ∧ (∀ (ppm_ids : List (Int × Int)) (base_ppm : List (Int × ℚ)) (mod_ppm : ModPPM),
        rppmFooterStr.data <:+ (writeLuaOutput ppm_ids base_ppm mod_ppm).data
        ∧ ("HeroDBC.DBC.SpellRPPM = RPPMData").data <:+:
            (writeLuaOutput ppm_ids base_ppm mod_ppm).data) := by
  constructor
  · intro rows ranges out h
    unfold write_lua_file_melee at h
    cases hm : rows.mapM (meleeEntryLine ranges) with
    | error e => rw [hm] at h; exact absurd h (by simp [Bind.bind, Except.bind])
    | ok lines =>
        rw [hm] at h
        simp only [Bind.bind, Except.bind, Except.ok.injEq] at h
        have hsuf : meleeFooterStr.data <:+ out.data := by
          rw [← h]
          exact strDataSuffix_of_append _ _
        refine ⟨hsuf, ?_, ?_, ?_⟩
        · exact List.IsInfix.trans
            (strInfix_of_split "setmetatable(SpellMeleeRange, nil)"
              "\n-- Freeze the table for security and performance\n"
              "\n\nHeroDBC.DBC.SpellMeleeRange = SpellMeleeRange\nreturn SpellMeleeRange"
              meleeFooterStr rfl)
            hsuf.isInfix
        · exact List.IsInfix.trans
            (strInfix_of_split "HeroDBC.DBC.SpellMeleeRange = SpellMeleeRange"
              "\n-- Freeze the table for security and performance\nsetmetatable(SpellMeleeRange, nil)\n\n"
              "\nreturn SpellMeleeRange"
              meleeFooterStr rfl)
            hsuf.isInfix
        · exact List.IsSuffix.trans
            (strSuffix_of_split "return SpellMeleeRange"
              "\n-- Freeze the table for security and performance\nsetmetatable(SpellMeleeRange, nil)\n\nHeroDBC.DBC.SpellMeleeRange = SpellMeleeRange\n"
              meleeFooterStr rfl)
            hsuf
  · intro ppm_ids base_ppm mod_ppm
    have hsuf : rppmFooterStr.data <:+ (writeLuaOutput ppm_ids base_ppm mod_ppm).data := by
      unfold writeLuaOutput
      exact strDataSuffix_of_append _ _
    refine ⟨hsuf, List.IsInfix.trans ?_ hsuf.isInfix⟩
    exact strInfix_of_split "HeroDBC.DBC.SpellRPPM = RPPMData"
      "\n-- Fast lookup function for RPPM calculations\nlocal function GetRPPM(spellID, classID, specID)\n  local data = RPPMData[spellID]\n  if not data then return 0 end\n  \n  local base = data[0]\n  if not base then return 0 end\n  \n  -- Apply class/spec modifiers if they exist\n  if classID and data[3] and data[3][classID] then\n    base = data[3][classID]\n  end\n  if specID and data[4] and data[4][specID] then\n    base = data[4][specID]\n  end\n  \n  return base\nend\n\n"
      "\nHeroDBC.DBC.GetRPPM = GetRPPM\n"
      rppmFooterStr rfl

/-- Witness for C5 on the empty inputs of both serializers. -/
theorem c5_serializer_footer_witness :
    write_lua_file_melee [] [] =
      .ok (meleeHeaderStr ++ String.intercalate "\n" [] ++ meleeFooterStr)
    ∧ (meleeFooterStr.data <:+
          (meleeHeaderStr ++ String.intercalate "\n" [] ++ meleeFooterStr).data
        ∧ ("setmetatable(SpellMeleeRange, nil)").data <:+:
            (meleeHeaderStr ++ String.intercalate "\n" [] ++ meleeFooterStr).data
        ∧ ("HeroDBC.DBC.SpellMeleeRange = SpellMeleeRange").data <:+:
            (meleeHeaderStr ++ String.intercalate "\n" [] ++ meleeFooterStr).data
        ∧ ("return SpellMeleeRange").data <:+
            (meleeHeaderStr ++ String.intercalate "\n" [] ++ meleeFooterStr).data) :=
  ⟨rfl, c5_serializer_footer.1 [] []
    (meleeHeaderStr ++ String.intercalate "\n" [] ++ meleeFooterStr) rfl⟩

/-- Counterexample for C5 as stated: the RPPM output on concrete input has
the global-name assignment but contains no metatable removal at all and no
return of the RPPMData table. -/
theorem c5_rppm_footer_counterexample :
    ¬ ("setmetatable").data <:+: (writeLuaOutput [] [] []).data
    ∧ ¬ ("return RPPMData").data <:+: (writeLuaOutput [] [] []).data
    ∧ ("HeroDBC.DBC.SpellRPPM = RPPMData").data <:+: (writeLuaOutput [] [] []).data := by
  have h1 : containsSub ("setmetatable").data (writeLuaOutput [] [] []).data = false := rfl
  have h2 : containsSub ("return RPPMData").data (writeLuaOutput [] [] []).data = false := rfl
  refine ⟨?_, ?_, ?_⟩
  · intro hinf
    have := (containsSub_iff _ _).mpr hinf
    rw [h1] at this
    exact Bool.noConfusion this
  · intro hinf
    have := (containsSub_iff _ _).mpr hinf
    rw [h2] at this
    exact Bool.noConfusion this
  · have hsuf : rppmFooterStr.data <:+ (writeLuaOutput [] [] []).data := by
      unfold writeLuaOutput
      exact strDataSuffix_of_append _ _
    exact List.IsInfix.trans
      (strInfix_of_split "HeroDBC.DBC.SpellRPPM = RPPMData"
        "\n-- Fast lookup function for RPPM calculations\nlocal function GetRPPM(spellID, classID, specID)\n  local data = RPPMData[spellID]\n  if not data then return 0 end\n  \n  local base = data[0]\n  if not base then return 0 end\n  \n  -- Apply class/spec modifiers if they exist\n  if classID and data[3] and data[3][classID] then\n    base = data[3][classID]\n  end\n  if specID and data[4] and data[4][specID] then\n    base = data[4][specID]\n  end\n  \n  return base\nend\n\n"
        "\nHeroDBC.DBC.GetRPPM = GetRPPM\n"
        rppmFooterStr rfl)
      hsuf.isInfix

/-! ## Claim C6 -/

/-- C6: when the azerite source table AzeriteEmpoweredItem.csv does not
exist, the unit writes the two output documents AzeritePowerWithItems.json
and AzeritePower.json as valid empty JSON arrays and returns normally,
whatever the rest of the pipeline would have produced. -/
theorem c6_azerite_missing_input :
    ∀ rest : Except String (List (String × Json)),
      azeriteMain false rest =
        .ok [("AzeritePowerWithItems.json", Json.jarr []),
             ("AzeritePower.json", Json.jarr [])] := by
  intro rest
  rfl

/-! ## Claim C7 -/

theorem keyLe_total : ∀ x y : ℕ × Int, keyLe x y ∨ keyLe y x := by
  intro x y
  unfold keyLe
  omega

theorem keyLe_trans : ∀ x y z : ℕ × Int, keyLe x y → keyLe y z → keyLe x z := by
  intro x y z
  unfold keyLe
  omega

theorem keyLe_refl : ∀ x : ℕ × Int, keyLe x x := by
  intro x
  unfold keyLe
  omega

theorem sortEffectsDesc_head :
    ∀ (l : List Effect) (w : Effect) (rest : List Effect),
      sortEffectsDesc l = w :: rest →
      ∃ pre post, l = pre ++ w :: post
        ∧ (∀ e ∈ l, keyLe (tickKey e) (tickKey w))
        ∧ (∀ e ∈ pre, ¬ keyLe (tickKey w) (tickKey e)) := by
  intro l
  induction l with
  | nil => intro w rest h; exact absurd h (by simp [sortEffectsDesc])
  | cons x xs ih =>
      intro w rest h
      simp only [sortEffectsDesc, List.insertionSort] at h
      cases hs : List.insertionSort (fun a b => keyLe (tickKey b) (tickKey a)) xs with
      | nil =>
          have hxs : xs = [] := by
            have hp := List.perm_insertionSort (fun a b => keyLe (tickKey b) (tickKey a)) xs
            rw [hs] at hp
            exact hp.symm.eq_nil
          subst hxs
          rw [hs] at h
          simp only [List.orderedInsert] at h
          have hw : w = x := (List.cons.inj h).1.symm
          subst hw
          refine ⟨[], [], rfl, ?_, by simp⟩
          intro e he
          simp only [List.mem_singleton] at he
          subst he
          exact keyLe_refl _
      | cons w' rest' =>
          rw [hs] at h
          by_cases hr : keyLe (tickKey w') (tickKey x)
          · rw [List.orderedInsert, if_pos hr] at h
            have hw : w = x := (List.cons.inj h).1.symm
            subst hw
            obtain ⟨pre', post', hxs, hmax', hpre'⟩ := ih w' rest' hs
            refine ⟨[], xs, rfl, ?_, by simp⟩
            intro e he
            rcases List.mem_cons.mp he with he | he
            · subst he; exact keyLe_refl _
            · exact keyLe_trans _ _ _ (hmax' e he) hr
          · rw [List.orderedInsert, if_neg hr] at h
            have hw : w = w' := (List.cons.inj h).1.symm
            subst hw
            obtain ⟨pre', post', hxs, hmax', hpre'⟩ := ih w rest' hs
            refine ⟨x :: pre', post', by rw [hxs]; rfl, ?_, ?_⟩
            · intro e he
              rcases List.mem_cons.mp he with he | he
              · subst he
                exact (keyLe_total (tickKey e) (tickKey w)).resolve_right hr
              · exact hmax' e he
            · intro e he
              rcases List.mem_cons.mp he with he | he
              · subst he; exact hr
              · exact hpre' e he

/-- C7: for every spell id whose effect group is nonempty, the single
emitted amplitude and mechanic pair of the tick-time unit comes from the
effect row that wins the priority-sorted order: DoT-mechanic rows rank
before others, larger amplitude ranks before smaller, and among rows tied
on both keys the first-encountered row in input order wins, which is stated
here as: the winner is maximal for the key order, and every row before the
winner in input order is strictly below it. -/
theorem c7_tick_time_priority_winner (rows : List EffRow) (pid : Int)
    (h : validEffects rows pid ≠ []) :
    ∃ pre w post, validEffects rows pid = pre ++ w :: post
      ∧ tickEntry rows pid = some (w.amplitude, w.mechanic)
      ∧ (∀ e ∈ validEffects rows pid, keyLe (tickKey e) (tickKey w))
      ∧ (∀ e ∈ pre, ¬ keyLe (tickKey w) (tickKey e)) := by
  cases hs : sortEffectsDesc (validEffects rows pid) with
  | nil =>
      have : validEffects rows pid = [] := by
        have hp := List.perm_insertionSort (fun a b => keyLe (tickKey b) (tickKey a))
          (validEffects rows pid)
        rw [show sortEffectsDesc (validEffects rows pid) =
            List.insertionSort (fun a b => keyLe (tickKey b) (tickKey a))
              (validEffects rows pid) from rfl] at hs
        rw [hs] at hp
        exact hp.symm.eq_nil
      exact absurd this h
  | cons w rest =>
      obtain ⟨pre, post, heq, hmax, hpre⟩ := sortEffectsDesc_head _ w rest hs
      exact ⟨pre, w, post, heq, by simp [tickEntry, hs], hmax, hpre⟩

/-- Witness for C7 on a concrete group: a DoT row with mechanic 6 and
amplitude 5 beats an earlier non-DoT row with amplitude 3. -/
theorem c7_tick_time_priority_winner_witness :
    validEffects [⟨"10", "3", "0", "1"⟩, ⟨"10", "5", "6", "2"⟩] 10 ≠ []
    ∧ ∃ pre w post,
        validEffects [⟨"10", "3", "0", "1"⟩, ⟨"10", "5", "6", "2"⟩] 10 = pre ++ w :: post
        ∧ tickEntry [⟨"10", "3", "0", "1"⟩, ⟨"10", "5", "6", "2"⟩] 10 =
            some (w.amplitude, w.mechanic)
        ∧ (∀ e ∈ validEffects [⟨"10", "3", "0", "1"⟩, ⟨"10", "5", "6", "2"⟩] 10,
            keyLe (tickKey e) (tickKey w))
        ∧ (∀ e ∈ pre, ¬ keyLe (tickKey w) (tickKey e)) :=
  ⟨by decide, c7_tick_time_priority_winner [⟨"10", "3", "0", "1"⟩, ⟨"10", "5", "6", "2"⟩] 10
    (by decide)⟩

/-! ## Claim C8 -/

theorem sorted_perm_key_unique_eq :
    ∀ (l₁ l₂ : List GCDData),
      l₁.Perm l₂ →
      l₁.Sorted (fun a b => a.spell_id ≤ b.spell_id) →
      l₂.Sorted (fun a b => a.spell_id ≤ b.spell_id) →
      (∀ a ∈ l₁, ∀ b ∈ l₁, a.spell_id = b.spell_id → a = b) →
      l₁ = l₂ := by
  intro l₁
  induction l₁ with
  | nil => intro l₂ hp _ _ _; exact (hp.symm.eq_nil).symm
  | cons a t₁ ih =>
      intro l₂ hp hs₁ hs₂ huniq
      cases l₂ with
      | nil => exact absurd hp.eq_nil (by simp)
      | cons b t₂ =>
          have hab : a = b := by
            have hbmem : b ∈ a :: t₁ := hp.mem_iff.mpr (List.mem_cons_self b t₂)
            have hamem : a ∈ b :: t₂ := hp.mem_iff.mp (List.mem_cons_self a t₁)
            have h₁ : a.spell_id ≤ b.spell_id := by
              rcases List.mem_cons.mp hbmem with h | h
              · simp [h]
              · exact (List.sorted_cons.mp hs₁).1 b h
            have h₂ : b.spell_id ≤ a.spell_id := by
              rcases List.mem_cons.mp hamem with h | h
              · simp [h]
              · exact (List.sorted_cons.mp hs₂).1 a h
            exact huniq a (List.mem_cons_self a t₁) b hbmem (le_antisymm h₁ h₂)
          subst hab
          have hp' : t₁.Perm t₂ := hp.cons_inv
          have ht := ih t₂ hp' (List.sorted_cons.mp hs₁).2 (List.sorted_cons.mp hs₂).2
            (fun x hx y hy hxy =>
              huniq x (List.mem_cons_of_mem a hx) y (List.mem_cons_of_mem a hy) hxy)
          rw [ht]

/-- C8 (amended): when the retained entries carry pairwise-distinct spell
ids, which makes equal-key entries equal, feeding any permutation of the
SpellCooldowns rows produces the same sorted entry list and hence the same
serialized bytes.  With duplicate spell ids carrying different values the
claim as stated fails, because the stable sort keeps them in input order. -/
theorem c8_gcd_order_invariance (rows rows' : List GCDRow) (hp : rows.Perm rows')
    (huniq : ∀ a ∈ process_chunk rows, ∀ b ∈ process_chunk rows,
        a.spell_id = b.spell_id → a = b) :
    process_spell_data_gcd rows = process_spell_data_gcd rows'
    ∧ write_lua_file_gcd (process_spell_data_gcd rows)
        = write_lua_file_gcd (process_spell_data_gcd rows') := by
  haveI : IsTotal GCDData (fun a b => a.spell_id ≤ b.spell_id) := ⟨fun a b => le_total _ _⟩
  haveI : IsTrans GCDData (fun a b => a.spell_id ≤ b.spell_id) :=
    ⟨fun _ _ _ hab hbc => le_trans hab hbc⟩
  have hpc : (process_chunk rows).Perm (process_chunk rows') := hp.filterMap _
  have hkey : process_spell_data_gcd rows = process_spell_data_gcd rows' := by
    apply sorted_perm_key_unique_eq
    · exact ((List.perm_insertionSort _ _).trans hpc).trans (List.perm_insertionSort _ _).symm
    · exact List.sorted_insertionSort _ _
    · exact List.sorted_insertionSort _ _
    · intro a ha b hb hab
      exact huniq a ((List.perm_insertionSort _ _).mem_iff.mp ha)
        b ((List.perm_insertionSort _ _).mem_iff.mp hb) hab
  exact ⟨hkey, by rw [hkey]⟩

/-- Witness for C8 on two distinct-id rows fed in both orders. -/
theorem c8_gcd_order_invariance_witness :
    ([⟨"2", "1.0"⟩, ⟨"1", "1.5"⟩] : List GCDRow).Perm [⟨"1", "1.5"⟩, ⟨"2", "1.0"⟩]
    ∧ (∀ a ∈ process_chunk [⟨"2", "1.0"⟩, ⟨"1", "1.5"⟩],
        ∀ b ∈ process_chunk [⟨"2", "1.0"⟩, ⟨"1", "1.5"⟩], a.spell_id = b.spell_id → a = b)
    ∧ (process_spell_data_gcd [⟨"2", "1.0"⟩, ⟨"1", "1.5"⟩] =
        process_spell_data_gcd [⟨"1", "1.5"⟩, ⟨"2", "1.0"⟩]
      ∧ write_lua_file_gcd (process_spell_data_gcd [⟨"2", "1.0"⟩, ⟨"1", "1.5"⟩]) =
          write_lua_file_gcd (process_spell_data_gcd [⟨"1", "1.5"⟩, ⟨"2", "1.0"⟩])) :=
  ⟨by decide, by decide,
    c8_gcd_order_invariance [⟨"2", "1.0"⟩, ⟨"1", "1.5"⟩] [⟨"1", "1.5"⟩, ⟨"2", "1.0"⟩]
      (by decide) (by decide)⟩

/-- Counterexample for C8 as stated: two rows with the same spell id but
different cooldown values produce different entry lists and different bytes
under the two input orders, because the sort is stable on equal keys. -/
theorem c8_gcd_order_invariance_counterexample :
    ([⟨"1", "1.5"⟩, ⟨"1", "1.0"⟩] : List GCDRow).Perm [⟨"1", "1.0"⟩, ⟨"1", "1.5"⟩]
    ∧ process_spell_data_gcd [⟨"1", "1.5"⟩, ⟨"1", "1.0"⟩] ≠
        process_spell_data_gcd [⟨"1", "1.0"⟩, ⟨"1", "1.5"⟩]
    ∧ write_lua_file_gcd (process_spell_data_gcd [⟨"1", "1.5"⟩, ⟨"1", "1.0"⟩]) ≠
        write_lua_file_gcd (process_spell_data_gcd [⟨"1", "1.0"⟩, ⟨"1", "1.5"⟩]) := by
  refine ⟨by decide, by decide, by decide⟩

/-! ## Claim C9 -/

theorem talLookup_insert_self (t : TalTree) (r : TalentRec) :
    talLookup (talInsert t r) (talPath r) = some r.talent := by
  simp [talLookup, talInsert, talPath, dictGet_dictSet_self]

theorem talLookup_insert_ne (t : TalTree) (r : TalentRec) (p : String × String × String × String)
    (h : p ≠ talPath r) : talLookup (talInsert t r) p = talLookup t p := by
  obtain ⟨p1, p2, p3, p4⟩ := p
  by_cases h1 : p1 = r.class_id
  · subst h1
    by_cases h2 : p2 = r.spec_id
    · subst h2
      by_cases h3 : p3 = r.row
      · subst h3
        by_cases h4 : p4 = r.col
        · exact absurd (by simp [talPath, h4]) h
        · simp [talLookup, talInsert, dictGet_dictSet_self, dictGet_dictSet_ne _ _ _ _ h4]
      · simp [talLookup, talInsert, dictGet_dictSet_self, dictGet_dictSet_ne _ _ _ _ h3]
    · simp [talLookup, talInsert, dictGet_dictSet_self, dictGet_dictSet_ne _ _ _ _ h2]
  · simp [talLookup, talInsert, dictGet_dictSet_ne _ _ _ _ h1]

theorem talLookup_fold_preserve (p : String × String × String × String) :
    ∀ (rs : List TalentRec), (∀ r' ∈ rs, talPath r' ≠ p) →
      ∀ t, talLookup (rs.foldl talInsert t) p = talLookup t p := by
  intro rs
  induction rs with
  | nil => intro _ t; rfl
  | cons r rest ih =>
      intro h t
      rw [List.foldl_cons, ih (fun r' hr => h r' (List.mem_cons_of_mem _ hr))]
      exact talLookup_insert_ne t r p (Ne.symm (h r (List.mem_cons_self r rest)))

theorem soulLookup_insert_self (t : SoulTree) (s : SoulRec) :
    soulLookup (soulInsert t s) (soulPath s) = some s.ability := by
  simp [soulLookup, soulInsert, soulPath, dictGet_dictSet_self]

theorem soulLookup_insert_ne (t : SoulTree) (s : SoulRec) (p : Int × Int × Int)
    (h : p ≠ soulPath s) : soulLookup (soulInsert t s) p = soulLookup t p := by
  obtain ⟨p1, p2, p3⟩ := p
  by_cases h1 : p1 = s.tree_id
  · subst h1
    by_cases h2 : p2 = s.tier
    · subst h2
      by_cases h3 : p3 = s.ui_order
      · exact absurd (by simp [soulPath, h3]) h
      · simp [soulLookup, soulInsert, dictGet_dictSet_self, dictGet_dictSet_ne _ _ _ _ h3]
    · simp [soulLookup, soulInsert, dictGet_dictSet_self, dictGet_dictSet_ne _ _ _ _ h2]
  · simp [soulLookup, soulInsert, dictGet_dictSet_ne _ _ _ _ h1]

theorem soulLookup_fold_preserve (p : Int × Int × Int) :
    ∀ (ss : List SoulRec), (∀ s' ∈ ss, soulPath s' ≠ p) →
      ∀ t, soulLookup (ss.foldl soulInsert t) p = soulLookup t p := by
  intro ss
  induction ss with
  | nil => intro _ t; rfl
  | cons s rest ih =>
      intro h t
      rw [List.foldl_cons, ih (fun s' hs => h s' (List.mem_cons_of_mem _ hs))]
      exact soulLookup_insert_ne t s p (Ne.symm (h s (List.mem_cons_self s rest)))

/-- C9: in the hierarchical assembler, when a record is folded into the
nested output tree, the final tree holds the payload of the last record with
a given full key path, and an insertion leaves every other key path
unchanged; this holds for the talent tree keyed by class, spec, row and
column and for the soulbind tree keyed by tree, tier and order. -/
theorem c9_last_write_wins :
    (∀ (rs1 : List TalentRec) (r : TalentRec) (rs2 : List TalentRec),
        (∀ r' ∈ rs2, talPath r' ≠ talPath r) →
        talLookup (processTalentRecords (rs1 ++ r :: rs2)) (talPath r) = some r.talent)
    ∧ (∀ (t : TalTree) (r : TalentRec) (p : String × String × String × String),
        p ≠ talPath r → talLookup (talInsert t r) p = talLookup t p)
    ∧ (∀ (ss1 : List SoulRec) (s : SoulRec) (ss2 : List SoulRec),
        (∀ s' ∈ ss2, soulPath s' ≠ soulPath s) →
        soulLookup (processSoulRecords (ss1 ++ s :: ss2)) (soulPath s) = some s.ability)
    ∧ (∀ (t : SoulTree) (s : SoulRec) (p : Int × Int × Int),
        p ≠ soulPath s → soulLookup (soulInsert t s) p = soulLookup t p) := by
  refine ⟨?_, talLookup_insert_ne, ?_, soulLookup_insert_ne⟩
  · intro rs1 r rs2 hlast
    unfold processTalentRecords
    rw [List.foldl_append, List.foldl_cons]
    rw [talLookup_fold_preserve (talPath r) rs2 hlast]
    exact talLookup_insert_self _ r
  · intro ss1 s ss2 hlast
    unfold processSoulRecords
    rw [List.foldl_append, List.foldl_cons]
    rw [soulLookup_fold_preserve (soulPath s) ss2 hlast]
    exact soulLookup_insert_self _ s

/-- Witness for C9: a later talent record at the same class, spec, row and
column path overwrites an earlier one while a record at a different column
is unaffected, and likewise for soulbind records. -/
theorem c9_last_write_wins_witness :
    (∀ r' ∈ [(⟨"1", "2", "3", "5", ⟨12, 22, "C"⟩⟩ : TalentRec)],
        talPath r' ≠ talPath ⟨"1", "2", "3", "4", ⟨11, 21, "B"⟩⟩)
    ∧ talLookup
        (processTalentRecords
          ([⟨"1", "2", "3", "4", ⟨10, 20, "A"⟩⟩] ++ ⟨"1", "2", "3", "4", ⟨11, 21, "B"⟩⟩ ::
            [⟨"1", "2", "3", "5", ⟨12, 22, "C"⟩⟩]))
        (talPath ⟨"1", "2", "3", "4", ⟨11, 21, "B"⟩⟩) = some ⟨11, 21, "B"⟩
    ∧ (((9 : Int), (2 : Int), (3 : Int)) ≠ soulPath ⟨1, 2, 3, ⟨100, "X", none, none, none⟩⟩)
    ∧ soulLookup (soulInsert [] ⟨1, 2, 3, ⟨100, "X", none, none, none⟩⟩) (9, 2, 3) =
        soulLookup [] (9, 2, 3) :=
  ⟨by decide,
    c9_last_write_wins.1 [⟨"1", "2", "3", "4", ⟨10, 20, "A"⟩⟩]
      ⟨"1", "2", "3", "4", ⟨11, 21, "B"⟩⟩ [⟨"1", "2", "3", "5", ⟨12, 22, "C"⟩⟩] (by decide),
    by decide,
    c9_last_write_wins.2.2.2 [] ⟨1, 2, 3, ⟨100, "X", none, none, none⟩⟩ (9, 2, 3) (by decide)⟩

/-! ## Claim C10 -/

/-- C10: every item record emitted by process_item_data has an item level in
the allow-set 158, 200, 226, 233 and a nonempty inventory type, and
consequently its source field is one of dungeon, pvp, castle_nathria, other
and sanctum_of_domination: the empty-string fall-through of compute_source
is unreachable for emitted records. -/
theorem c10_item_source_enum (r : ItemRow) (tbl : List (Int × Int)) (it : ItemData)
    (h : process_item_data r tbl = some it) :
    it.ilevel ∈ VALID_ITEM_LEVELS ∧ it.type ≠ "" ∧ it.source ∈ itemSourceValues := by
  unfold process_item_data at h
  cases hid : pyInt r.id with
  | none => simp [hid] at h
  | some item_id =>
  simp only [hid] at h
  cases hil : pyInt r.ilevel with
  | none => simp [hil] at h
  | some ilevel =>
  simp only [hil] at h
  by_cases hv : ilevel ∈ VALID_ITEM_LEVELS
  · rw [if_pos hv] at h
    cases hit : pyInt r.inv_type with
    | none => simp [hit] at h
    | some inv =>
    simp only [hit] at h
    by_cases hty : ITEM_TYPE_MAP inv = ""
    · rw [if_pos hty] at h
      exact absurd h (by simp)
    · rw [if_neg hty] at h
      cases hmat : pyInt r.material with
      | none => simp [hmat] at h
      | some mat =>
      simp only [hmat] at h
      cases hq : pyInt r.quality with
      | none => simp [hq] at h
      | some q =>
      simp only [hq] at h
      have heq := Option.some.inj h
      refine ⟨?_, ?_, ?_⟩
      · rw [← heq]; exact hv
      · rw [← heq]; exact hty
      · rw [← heq]
        show compute_source item_id q (ITEM_TYPE_MAP inv) ilevel tbl ∈ itemSourceValues
        fin_cases hv <;> simp [compute_source, itemSourceValues] <;>
          split_ifs <;> simp [itemSourceValues] <;> tauto
  · rw [if_neg hv] at h
    exact absurd h (by simp)

/-- Witness for C10 on a concrete trinket row at item level 158 with no
encounter entry, whose source resolves to pvp. -/
theorem c10_item_source_enum_witness :
    process_item_data
        ⟨"1", "Item", "158", "4", "12", "7", "3", "0", "0", "0", "0", "0", "0", "0"⟩ [] =
      some ⟨1, "Item", 158, "trinket", "cloth", ["agi"], 0, "pvp"⟩
    ∧ ((158 : Int) ∈ VALID_ITEM_LEVELS ∧ "trinket" ≠ "" ∧ "pvp" ∈ itemSourceValues) :=
  ⟨by decide,
    c10_item_source_enum ⟨"1", "Item", "158", "4", "12", "7", "3", "0", "0", "0", "0", "0", "0", "0"⟩
      [] ⟨1, "Item", 158, "trinket", "cloth", ["agi"], 0, "pvp"⟩ (by decide)⟩
